import Mathlib

/-!
Verification development for the switchHelper repository (src/index.js).

The file shallowly embeds the parts of the code that the claims concern:

* `FindInLocation` (src/index.js lines 413-519): option normalisation,
  validation, and the depth-bounded recursive directory scan `scanFolder`.
* `CsvProcessor` (lines 522-632): loading a delimited file into headers/rows
  and saving it back.
* `MatchFilesToCsvData` (lines 652-764): rule validation and the per-row
  reconciliation loop, including the consequences of the actual JavaScript
  semantics of that loop (the call to `FindInLocation` there is not awaited,
  so the value bound to `foundFiles` is a Promise object).
* `SwitchReport` (lines 8-171): severity counters, message lists and HTML rows.
* `GenerateDateString` / `GenerateNewName` (lines 196-214).

Names are lists of characters; option enumerations are strings.  JavaScript
`undefined` flowing into table cells is modelled by `JsCell.undef`.
-/

/-! ### Basic string and path helpers -/

/-- Lower-case a name character-wise; models JavaScript `toLowerCase` on the
ASCII names used throughout the code. -/
def lowerList (s : List Char) : List Char :=
  s.map Char.toLower

/-- JavaScript `toLowerCase` on a string value. -/
def toLowerStr (s : String) : String :=
  String.mk (lowerList s.toList)

/-- The whitespace characters stripped by JavaScript `trim` (ASCII
fragment). -/
def jsWhitespace (c : Char) : Bool :=
  c == ' ' || c == '\t' || c == '\n' || c == '\r'

/-- Strip leading and trailing whitespace from a character list. -/
def trimChars (l : List Char) : List Char :=
  ((l.dropWhile jsWhitespace).reverse.dropWhile jsWhitespace).reverse

/-- JavaScript `trim` on a string value. -/
def jsTrim (s : String) : String :=
  String.mk (trimChars s.toList)

/-- Value of a decimal digit string. -/
def digitsToNat (l : List Char) : Nat :=
  l.foldl (fun a c => a * 10 + (c.toNat - '0'.toNat)) 0

/-- Index of the last `'.'` character of a file name, if any. -/
def lastDotIdx (n : List Char) : Option Nat :=
  n.enum.foldl (fun a p => if p.2 == '.' then some p.1 else a) none

/-- Extension of a bare file name as computed by Node `path.parse(...).ext`:
everything from the last dot on, except that a sole leading dot (hidden
files such as `.bashrc`) yields the empty extension. -/
def extOf (n : List Char) : List Char :=
  match lastDotIdx n with
  | some i => if i == 0 then [] else n.drop i
  | none => []

/-- Name without its extension, as computed by Node `path.parse(...).name`. -/
def stemOf (n : List Char) : List Char :=
  match lastDotIdx n with
  | some i => if i == 0 then n else n.take i
  | none => n

/-- Final path segment (after the last `'/'`) of a path. -/
def baseNameL (p : List Char) : List Char :=
  p.foldl (fun acc c => if c == '/' then [] else acc ++ [c]) []

/-- Node `path.parse(s).ext` on a full path string. -/
def pathExt (s : String) : String :=
  String.mk (extOf (baseNameL s.toList))

/-- Node `path.parse(s).base` on a full path string. -/
def pathBase (s : String) : String :=
  String.mk (baseNameL s.toList)

/-- `path.join` of a directory path and an entry name with forward slashes,
as produced by `path.join(haystack, hayOriginal).replaceAll("\\", "/")`
(src/index.js line 474). -/
def joinPath (dirPath nm : List Char) : List Char :=
  dirPath ++ '/' :: nm

/-! ### The name test of `scanFolder`

`scanFolder` keeps an entry name when
`options.partialMatch && hay.search(needle) === -1` fails to skip it
(src/index.js line 480).  JavaScript `String.prototype.search` converts its
argument to a regular expression, so the needle is a regex pattern, not a
plain substring.  `regexMatchAt`/`jsSearchDot` model that search ONLY for
the fragment of patterns whose characters are regex-literal or the `'.'`
wildcard (`'.'` here matches any character; names containing line
terminators are not modelled).  On patterns containing other regex
metacharacters (`'*'`, `'+'`, `'('`, ...) JavaScript compiles the full
regex — or throws on an invalid one — and this model is NOT faithful, so
every theorem below instantiates it only on dot-or-literal needles:
general statements carry the `regexSpecialChar`-freedom hypothesis, and the
concrete counterexample needle "a.c" lies inside the faithful fragment. -/

/-- The JavaScript regular-expression syntax characters: a needle containing
none of these is matched purely literally by `hay.search(needle)`. -/
def regexSpecialChar (c : Char) : Bool :=
  c == '.' || c == '*' || c == '+' || c == '?' || c == '(' || c == ')'
    || c == '[' || c == ']' || c == '\x7b' || c == '\x7d'
    || c == '|' || c == '^' || c == '$' || c == '\\'

/-- Does the pattern match a prefix of the text, with `'.'` as a wildcard?
Faithful to JavaScript only for patterns of literals and `'.'` (see the
section comment). -/
def regexMatchAt : List Char → List Char → Bool
  | [], _ => true
  | _ :: _, [] => false
  | p :: ps, h :: hs => (p == '.' || p == h) && regexMatchAt ps hs

/-- JavaScript `hay.search(pat) !== -1` for dot-or-literal patterns: the
pattern matches at some position of the text.  Faithful to JavaScript only
on that fragment (see the section comment). -/
def jsSearchDot (pat : List Char) : List Char → Bool
  | [] => regexMatchAt pat []
  | h :: hs => regexMatchAt pat (h :: hs) || jsSearchDot pat hs

/-- Plain substring containment of `pat` in `hay` (what the spec asserts the
partial match to be). -/
def containsSub (pat : List Char) : List Char → Bool
  | [] => pat.isEmpty
  | h :: hs => pat.isPrefixOf (h :: hs) || containsSub pat hs

/-! ### Directory trees and scan options -/

/-- A directory entry: a plain file or a directory with its own entries.
Only these two kinds occur in the claims (the code also consults
`dirent.isFile()`, which differs from `!isDirectory()` only for special
entries such as symlinks, not modelled here). -/
inductive FsEntry where
  | file (nm : List Char)
  | dir (nm : List Char) (entries : List FsEntry)

/-- Name of an entry. -/
def FsEntry.name : FsEntry → List Char
  | .file nm => nm
  | .dir nm _ => nm

/-- Whether the entry is a directory. -/
def FsEntry.isDirB : FsEntry → Bool
  | .file _ => false
  | .dir _ _ => true

/-- Caller-supplied options of `FindInLocation` after the unconditional
JavaScript defaulting of lines 417-426: booleans already defaulted
(`partialMatch` true, `caseSensitive` false), `allowedExt` empty when absent,
`depth` 0 when absent, `returnType` the raw array (an empty array is replaced
by `["full"]` below, as the truthy-length check on line 422 does), `lookFor`
and `ifHaystackNotFound` kept optional because their defaults are applied by
`=== undefined` / `||` checks. -/
structure FindOptions where
  allowedExt : List (List Char) := []
  partialMatch : Bool := true
  caseSensitive : Bool := false
  returnType : List String := []
  depth : Int := 0
  lookFor : Option String := none
  ifHaystackNotFound : Option String := none

/-- Leading-dot enforcement on an already normalised extension
(src/index.js line 438). -/
def enforceDot (e : List Char) : List Char :=
  match e with
  | '.' :: _ => e
  | _ => '.' :: e

/-- One step of the `allowedExt` parsing loop (src/index.js lines 432-446):
remove spaces, lower-case, skip empty entries, enforce a leading dot,
skip duplicates. -/
def parseExtStep (acc : List (List Char)) (e : List Char) : List (List Char) :=
  let e' := lowerList (e.filter (fun c => !(c == ' ')))
  if e'.isEmpty then acc
  else
    let e'' := enforceDot e'
    if acc.contains e'' then acc else acc ++ [e'']

/-- The parsed `allowedExt` list.  The source also tracks `allowAllExt`,
which starts `true` and is set to `false` exactly when a parsed extension is
pushed, so `allowAllExt` equals "the parsed list is empty". -/
def parseAllowedExt (exts : List (List Char)) : List (List Char) :=
  exts.foldl parseExtStep []

/-- Options as consumed by the scan loop, after extension parsing and
`returnType` / `lookFor` defaulting. -/
structure ScanOpts where
  parsedAllowedExt : List (List Char)
  allowAllExt : Bool
  partialMatch : Bool
  caseSensitive : Bool
  returnType : List String
  lookFor : String

/-- Build the processed options from the raw ones. -/
def mkScanOpts (fo : FindOptions) : ScanOpts :=
  let parsed := parseAllowedExt fo.allowedExt
  { parsedAllowedExt := parsed
    allowAllExt := parsed.isEmpty
    partialMatch := fo.partialMatch
    caseSensitive := fo.caseSensitive
    returnType := if fo.returnType.isEmpty then ["full"] else fo.returnType
    lookFor := fo.lookFor.getD "files" }

/-- The name comparison of src/index.js lines 473 and 480-484: the entry name
is case-normalised per `caseSensitive`, then either regex-searched for the
(already normalised) needle, or compared for exact equality. -/
def nameMatchTest (o : ScanOpts) (needle hayOriginal : List Char) : Bool :=
  let hay := if o.caseSensitive then hayOriginal else lowerList hayOriginal
  if o.partialMatch then jsSearchDot needle hay else hay == needle

/-- The extension filter of line 488: pass everything when no extension was
configured, otherwise require the lower-cased extension of the candidate to
be in the parsed list. -/
def extAllowed (o : ScanOpts) (nm : List Char) : Bool :=
  o.allowAllExt || o.parsedAllowedExt.contains (lowerList (extOf nm))

/-- The `lookFor` filter of lines 492-500.  Values other than the three
allowed ones are rejected by validation before the scan. -/
def kindAllowed (o : ScanOpts) (isDirEntry : Bool) : Bool :=
  if o.lookFor = "both" then true
  else if o.lookFor = "folders" then isDirEntry
  else if o.lookFor = "files" then !isDirEntry
  else true

/-- Whether `scanFolder` keeps an entry as a result: the chain of `continue`
statements on lines 480-500 in source order (name test, then extension
filter, then kind filter). -/
def entryKept (o : ScanOpts) (needle : List Char) (e : FsEntry) : Bool :=
  nameMatchTest o needle e.name && extAllowed o e.name && kindAllowed o e.isDirB

/-- The `response` object of `FindInLocation`: one result list per return
kind plus the statistics counters.  `timeTaken` is wall-clock time in the
source and is kept at 0 here. -/
structure ScanResponse where
  full : List (List Char)
  nameResults : List (List Char)
  nameProper : List (List Char)
  foldersScanned : Nat
  entitiesTested : Nat
  timeTaken : Nat
  resultsFound : Nat
deriving DecidableEq, Repr

/-- The freshly initialised response (line 427). -/
def emptyResponse : ScanResponse :=
  ⟨[], [], [], 0, 0, 0, 0⟩

/-- The body of the `for (const returnType of options.returnType)` loop of
lines 502-505: push the value of the requested kind into its result list. -/
def pushOne (fullPath entryName : List Char) (a : ScanResponse) (rt : String) : ScanResponse :=
  if rt = "full" then { a with full := a.full ++ [fullPath] }
  else if rt = "name" then { a with nameResults := a.nameResults ++ [entryName] }
  else if rt = "nameProper" then { a with nameProper := a.nameProper ++ [stemOf entryName] }
  else a

/-- Push one match into every requested result list and count it once
(lines 502-506). -/
def pushResults (o : ScanOpts) (fullPath entryName : List Char)
    (acc : ScanResponse) : ScanResponse :=
  let acc' := o.returnType.foldl (pushOne fullPath entryName) acc
  { acc' with resultsFound := acc'.resultsFound + 1 }

/-- Processing of one directory entry (the body of the `for` loop of
lines 470-507): count it, recurse into subdirectories when a recursion
callback is available (the depth guard decides that), then apply the three
filters and record the match.  The recursive call on line 477 is an async
call executed synchronously to completion (the function contains no await),
so sub-results accumulate before the entry itself is tested. -/
def entryStep (o : ScanOpts) (needle dirPath : List Char)
    (recurse : Option (List Char → List FsEntry → ScanResponse → ScanResponse))
    (acc : ScanResponse) (e : FsEntry) : ScanResponse :=
  let acc1 := { acc with entitiesTested := acc.entitiesTested + 1 }
  let fullPath := joinPath dirPath e.name
  let acc2 :=
    match e, recurse with
    | FsEntry.dir _ sub, some f => f fullPath sub acc1
    | _, _ => acc1
  if entryKept o needle e then pushResults o fullPath e.name acc2 else acc2

/-- `scanFolder` (lines 466-508) on the entries of one directory.  The
recursion depth is a natural number: the source computes `newDepth = depth-1`
and recurses only while `newDepth >= 0`, so with depth 0 no recursion
happens and with depth `k+1` subdirectories are scanned with depth `k`. -/
def scanEntries (o : ScanOpts) (needle : List Char) :
    Nat → List Char → List FsEntry → ScanResponse → ScanResponse
  | 0, dirPath, es, acc =>
      es.foldl (entryStep o needle dirPath none)
        { acc with foldersScanned := acc.foldersScanned + 1 }
  | Nat.succ k, dirPath, es, acc =>
      es.foldl
        (entryStep o needle dirPath
          (some (fun p sub a => scanEntries o needle k p sub a)))
        { acc with foldersScanned := acc.foldersScanned + 1 }

/-- The JavaScript `value || default` idiom on an optional string: both an
absent field and the (falsy) empty string fall back to the default. -/
def jsOrDefault (v : Option String) (d : String) : String :=
  match v with
  | none => d
  | some s => if s = "" then d else s

/-- The truthy property names a bracket lookup finds on a plain object
literal beyond its own keys: the function-valued (or object-valued) members
inherited from `Object.prototype`.  The check
`!allowedIfHaystackNotFound[options.ifHaystackNotFound]` on line 452 also
accepts these values. -/
def objectPrototypeKeys : List String :=
  ["constructor", "hasOwnProperty", "isPrototypeOf", "propertyIsEnumerable",
   "toLocaleString", "toString", "valueOf", "__proto__",
   "__defineGetter__", "__defineSetter__", "__lookupGetter__", "__lookupSetter__"]

/-- `FindInLocation` (lines 413-519).  The haystack is `none` when the root
location does not exist (`fs.existsSync` false) and `some entries`
otherwise.  Validation happens in source order — `ifHaystackNotFound`
(line 452), the `returnType` values (line 454), `lookFor` (line 455) — and
only then is the filesystem consulted (line 456 onwards), which is why the
error branches below do not inspect `haystack`.  The `ifHaystackNotFound`
check is an object bracket lookup, so besides the two intended values it
also accepts the inherited `Object.prototype` names; for such a value, on a
missing haystack neither the `=== "throwError"` throw (line 457) nor the
`=== "returnEmptyResults"` return (line 461) fires, the flow falls through
to the second `existsSync` guard on line 510 and the function returns
JavaScript `undefined` — modelled as `Except.ok none`; a real response is
`Except.ok (some r)`.  A negative `depth` behaves exactly like 0 in the
source (the guard `newDepth >= 0` fails immediately), matching
`Int.toNat`. -/
def findInLocation (needle : List Char) (haystack : Option (List FsEntry))
    (rootPath : List Char) (fo : FindOptions) : Except String (Option ScanResponse) :=
  let o := mkScanOpts fo
  let needleN := if fo.caseSensitive then needle else lowerList needle
  let ihnf := jsOrDefault fo.ifHaystackNotFound "returnEmptyResults"
  if !(ihnf = "returnEmptyResults" || ihnf = "throwError"
        || objectPrototypeKeys.contains ihnf) then
    Except.error "Option not allowed in field ifHaystackNotFound"
  else if !(o.returnType.all fun rt => rt = "full" || rt = "name" || rt = "nameProper") then
    Except.error "Wrong returnType entered"
  else if !(o.lookFor = "files" || o.lookFor = "folders" || o.lookFor = "both") then
    Except.error "Value passed to option lookFor is invalid"
  else
    match haystack with
    | none =>
        if ihnf = "throwError" then Except.error "Haystack provided does not exist"
        else if ihnf = "returnEmptyResults" then Except.ok (some emptyResponse)
        else Except.ok none
    | some entries =>
        Except.ok (some (scanEntries o needleN fo.depth.toNat rootPath entries emptyResponse))

/-- Whether the three validated option values of `FindInLocation` pass the
checks of lines 452-455.  Mirrors the source exactly: the
`ifHaystackNotFound` bracket lookup also passes the inherited
`Object.prototype` names. -/
def findOptionsValid (fo : FindOptions) : Bool :=
  (jsOrDefault fo.ifHaystackNotFound "returnEmptyResults" = "returnEmptyResults"
      || jsOrDefault fo.ifHaystackNotFound "returnEmptyResults" = "throwError"
      || objectPrototypeKeys.contains (jsOrDefault fo.ifHaystackNotFound "returnEmptyResults"))
    && ((mkScanOpts fo).returnType.all fun rt => rt = "full" || rt = "name" || rt = "nameProper")
    && ((mkScanOpts fo).lookFor = "files" || (mkScanOpts fo).lookFor = "folders"
        || (mkScanOpts fo).lookFor = "both")

/-- Truncation of a directory tree `k` levels down: entries are kept, but the
contents of directories at level `k+1` below the listed level are removed.
`truncEntries d es` therefore keeps exactly the entries at most `d+1` levels
below a root whose immediate entries are `es`. -/
def truncEntries : Nat → List FsEntry → List FsEntry
  | 0, es => es.map (fun e => match e with
      | FsEntry.file nm => FsEntry.file nm
      | FsEntry.dir nm _ => FsEntry.dir nm [])
  | Nat.succ k, es => es.map (fun e => match e with
      | FsEntry.file nm => FsEntry.file nm
      | FsEntry.dir nm sub => FsEntry.dir nm (truncEntries k sub))

/-! ### CSV cells and the `CsvProcessor` table -/

/-- A JavaScript value as it occurs in a table cell: a string, the result of
numeric or boolean auto-typing on read, or `undefined` (written into cells by
the reconciler bug modelled below). -/
inductive JsCell where
  | str (s : String)
  | num (n : Nat)
  | boolean (b : Bool)
  | undef
deriving DecidableEq, Repr

/-- Modelled from the spec: the cell normalisation performed by the external
csv-reader dependency under the options the code passes on line 614
(`parseNumbers: true, parseBooleans: true, trim: true`) — surrounding
whitespace is trimmed and numeric/boolean cell texts are auto-typed.
Numeric parsing is modelled for decimal digit strings. -/
def readCell (s : String) : JsCell :=
  let t := jsTrim s
  if t = "true" then JsCell.boolean true
  else if t = "false" then JsCell.boolean false
  else if t ≠ "" && t.toList.all Char.isDigit then JsCell.num (digitsToNat t.toList)
  else JsCell.str t

/-- Modelled from the spec: the cell stringification of the external
csv-writer dependency before quoting (plain comma-separated values) — the
JavaScript string conversion of the cell value. -/
def cellWrite : JsCell → String
  | JsCell.str s => s
  | JsCell.num n => toString n
  | JsCell.boolean b => if b then "true" else "false"
  | JsCell.undef => ""

/-- The in-memory table of `CsvProcessor` (src/index.js lines 533-537):
the parsed header row, the parsed data rows, and the 1-based line number of
the first data row. -/
structure CsvTable where
  headers : List JsCell
  rows : List (List JsCell)
  rowsStartIndex : Nat
deriving DecidableEq, Repr

/-- Loading a CSV file (the stream handler of lines 609-631) from its rows of
raw cell texts: with headers enabled the first row becomes `headers`, the
remaining rows are data, and `rowsStartIndex` is the line number of the first
data row (2 when a header row is present, 0 when there are no data rows). -/
def csvLoad (firstRowContainsHeaders : Bool) (records : List (List String)) : CsvTable :=
  let parsed := records.map (fun r => r.map readCell)
  if firstRowContainsHeaders then
    match parsed with
    | [] => ⟨[], [], 0⟩
    | h :: rest => ⟨h, rest, if rest.isEmpty then 0 else 2⟩
  else
    ⟨[], parsed, if parsed.isEmpty then 0 else 1⟩

/-- `CsvProcessor.saveTo` (lines 584-606) as the written rows of cell texts:
the header row when non-empty, followed by the data rows. -/
def csvSaveRecords (t : CsvTable) : List (List String) :=
  let records := (if t.headers.length > 0 then [t.headers] else []) ++ t.rows
  records.map (fun r => r.map cellWrite)

/-- `findAllHeaders` (lines 555-573): indices and original spellings of the
headers equal to the keyword up to lower-casing.  A non-string header would
make the source throw on `toLowerCase`; such headers are not exercised by the
claims and yield no match here. -/
structure HeaderRef where
  idx : Nat
  value : String
deriving DecidableEq, Repr

/-- See `HeaderRef`. -/
def findAllHeaders (headers : List JsCell) (keyword : String) : List HeaderRef :=
  headers.enum.filterMap (fun p =>
    match p.2 with
    | JsCell.str h => if toLowerStr h = toLowerStr keyword then some ⟨p.1, h⟩ else none
    | _ => none)

/-! ### The `SwitchReport` object -/

/-- The state held in the closure of `SwitchReport` (lines 10-25), without
the page/tab titles and the unused `Log` message list. -/
structure ReportState where
  errorCount : Nat
  warningCount : Nat
  successCount : Nat
  listErrors : List String
  listWarnings : List String
  listSuccess : List String
  rows : List String
deriving DecidableEq, Repr

/-- The freshly constructed report. -/
def emptyReport : ReportState :=
  ⟨0, 0, 0, [], [], [], []⟩

/-- The colour class chosen by `addRow` (lines 63-70). -/
def rowColour (rowType : String) : String :=
  if rowType = "success" then "bg-success"
  else if rowType = "warning" then "bg-warning"
  else if rowType = "error" then "bg-error"
  else "bg-default"

/-- One rendered HTML row (lines 72-79), with the whitespace of the template
literal normalised away. -/
def htmlRow (colour message : String) : String :=
  "<div class=\"row\"><div class=\"cell-status " ++ colour
    ++ "\"></div><div class=\"cell-message\">" ++ message ++ "</div></div>"

/-- `addRow` (lines 63-80): push one HTML row per message. -/
def addRow (st : ReportState) (rowType : String) (messages : List String) : ReportState :=
  { st with rows := st.rows ++ messages.map (htmlRow (rowColour rowType)) }

/-- `addErrorRow` (lines 47-51): render the rows, append all messages to the
error list, and increment the error count once per call. -/
def addErrorRow (st : ReportState) (messages : List String) : ReportState :=
  let st1 := addRow st "error" messages
  { st1 with listErrors := st1.listErrors ++ messages,
             errorCount := st1.errorCount + 1 }

/-- `addWarningRow` (lines 52-56). -/
def addWarningRow (st : ReportState) (messages : List String) : ReportState :=
  let st1 := addRow st "warning" messages
  { st1 with listWarnings := st1.listWarnings ++ messages,
             warningCount := st1.warningCount + 1 }

/-- `addSuccessRow` (lines 57-61). -/
def addSuccessRow (st : ReportState) (messages : List String) : ReportState :=
  let st1 := addRow st "success" messages
  { st1 with listSuccess := st1.listSuccess ++ messages,
             successCount := st1.successCount + 1 }

/-- A call to one of the three row-adding methods, for stating facts about
call sequences. -/
inductive ReportCall where
  | errorCall (messages : List String)
  | warningCall (messages : List String)
  | successCall (messages : List String)

/-- Apply a sequence of row-adding calls. -/
def applyReportCalls (st : ReportState) : List ReportCall → ReportState
  | [] => st
  | ReportCall.errorCall ms :: rest => applyReportCalls (addErrorRow st ms) rest
  | ReportCall.warningCall ms :: rest => applyReportCalls (addWarningRow st ms) rest
  | ReportCall.successCall ms :: rest => applyReportCalls (addSuccessRow st ms) rest

/-- Whether a call is an error-severity call. -/
def ReportCall.isError : ReportCall → Bool
  | ReportCall.errorCall _ => true
  | _ => false

/-- Whether a call is a warning-severity call. -/
def ReportCall.isWarning : ReportCall → Bool
  | ReportCall.warningCall _ => true
  | _ => false

/-- Whether a call is a success-severity call. -/
def ReportCall.isSuccess : ReportCall → Bool
  | ReportCall.successCall _ => true
  | _ => false

/-! ### `GenerateDateString` and `GenerateNewName` -/

/-- A UTC instant by its calendar components, with `month` the real 1-based
month (1 = January … 12 = December). -/
structure JsDate where
  year : Nat
  month : Nat
  day : Nat
  hour : Nat
  minute : Nat
  second : Nat
  ms : Nat
deriving DecidableEq, Repr

/-- JavaScript `Date.prototype.getUTCMonth` is 0-based: it returns the month
index, one less than the calendar month. -/
def JsDate.getUTCMonth (d : JsDate) : Nat :=
  d.month - 1

/-- The two-digit padding of `GenerateDateString` (pad with a leading zero
below 10). -/
def pad2 (n : Nat) : String :=
  if n < 10 then "0" ++ toString n else toString n

/-- `GenerateDateString` (src/index.js lines 196-208).  Note that the month
segment uses `getUTCMonth` (the 0-based month index) and that the
milliseconds segment is appended without any padding. -/
def generateDateString (d : JsDate) (separator : String := "")
    (includeMs : Bool := true) : String :=
  toString d.year
    ++ separator ++ pad2 d.getUTCMonth
    ++ separator ++ pad2 d.day
    ++ separator ++ pad2 d.hour
    ++ separator ++ pad2 d.minute
    ++ separator ++ pad2 d.second
    ++ (if includeMs then separator ++ toString d.ms else "")

/-- `GenerateNewName` (lines 212-214), with the random draw
`Math.round(Math.random() * 1000000000000)` supplied as the argument
`rand`. -/
def generateNewName (d : JsDate) (rand : Nat) (pre : String := "")
    (suf : String := "") (separator : String := "_") : String :=
  (if pre ≠ "" then pre ++ separator else "")
    ++ generateDateString d
    ++ separator ++ toString rand
    ++ (if suf ≠ "" then separator ++ suf else "")

/-! ### `MatchFilesToCsvData` -/

/-- One raw entry of the `matching` array of `MatchFilesToCsvData` options,
with absent fields as `none`. -/
structure MatchingRule where
  columnToMatch : Option String := none
  columnForResults : Option String := none
  matchMethod : Option String := none
  resultsAppendMethod : Option String := none
  scanLocation : Option String := none
  useDifferentRootLocation : Option String := none
  ifColumnToMatchNotPresent : Option String := none

/-- A rule after the defaulting of src/index.js lines 669-675. -/
structure Rule where
  columnToMatch : String
  columnForResults : String
  matchMethod : String
  resultsAppendMethod : String
  scanLocation : String
  useDifferentRootLocation : String
  ifColumnToMatchNotPresent : String

/-- The defaulting of lines 669-675: `columnToMatch` falls back to the empty
string, `columnForResults` to "FileMatchResults" (a `||` default, so an empty
string is also replaced), `matchMethod` to "full" (an `=== undefined` check,
so an empty string is kept), the remaining `||` defaults as in the source. -/
def defaultRule (m : MatchingRule) : Rule :=
  { columnToMatch := m.columnToMatch.getD ""
    columnForResults :=
      (fun s => if s = "" then "FileMatchResults" else s) (m.columnForResults.getD "")
    matchMethod := m.matchMethod.getD "full"
    resultsAppendMethod := m.resultsAppendMethod.getD ""
    scanLocation := m.scanLocation.getD ""
    useDifferentRootLocation := m.useDifferentRootLocation.getD ""
    ifColumnToMatchNotPresent :=
      (fun s => if s = "" then "success" else s) (m.ifColumnToMatchNotPresent.getD "") }

/-- The per-rule validation of lines 677-684, in source order.  `fsPaths`
lists the existing filesystem paths (`fs.existsSync`).  Returns the thrown
error, if any. -/
def validateRule (fsPaths : List String) (r : Rule) : Option String :=
  if r.columnToMatch = "" then some "Column to match in the .csv file is not defined"
  else if r.columnForResults = "" then some "Column name where to put the results was not defined"
  else if r.scanLocation = "" then some "Scan location was not provided"
  else if !(fsPaths.contains r.scanLocation) then some "Scan location does not exist"
  else if pathExt r.scanLocation ≠ "" then some "File location provided instead of a system path"
  else if !(["full", "partial"].contains r.matchMethod) then some "Match method is not allowed"
  else if !(["full", "name", "nameProper"].contains r.resultsAppendMethod) then
    some "Results append method is not allowed"
  else if !(["success", "warning", "error"].contains r.ifColumnToMatchNotPresent) then
    some "Option ifColumnToMatchNotPresent has an invalid value"
  else none

/-- Options of `MatchFilesToCsvData`. -/
structure MatchOptions where
  csvLocation : Option String := none
  saveLocation : Option String := none
  matching : List MatchingRule := []

/-- First error in a list of optional errors. -/
def firstSome : List (Option String) → Option String
  | [] => none
  | some e :: _ => some e
  | none :: rest => firstSome rest

/-- The whole validation prologue of `MatchFilesToCsvData`
(lines 665-685): the CSV file must exist with extension ".csv", and every
rule must pass `validateRule`.  All of this happens before the CSV file is
loaded (line 687) and before any data row is touched. -/
def validateMatchOptions (fsPaths : List String) (o : MatchOptions) : Option String :=
  let csvLoc := o.csvLocation.getD ""
  if !(fsPaths.contains csvLoc) then some "Csv file does not exist in the location"
  else if pathExt csvLoc ≠ ".csv" then some "File in location is not a .csv file"
  else firstSome (o.matching.map (fun m => validateRule fsPaths (defaultRule m)))

/-- JavaScript array index assignment `row[i] = v`: beyond the current
length the array is extended, with holes (`undefined`) in between. -/
def jsSetCell (row : List JsCell) (i : Nat) (v : JsCell) : List JsCell :=
  if i < row.length then row.set i v
  else row ++ List.replicate (i - row.length) JsCell.undef ++ [v]

/-- Appending the results column header when it is absent
(lines 714-716): only `headers` changes, no row is padded. -/
def appendResultsColumn (t : CsvTable) (nm : String) : CsvTable :=
  { t with headers := t.headers ++ [JsCell.str nm] }

/-- JavaScript string conversion of a cell value, as used inside the
template-literal report messages. -/
def jsCellToString : JsCell → String
  | JsCell.str s => s
  | JsCell.num n => toString n
  | JsCell.boolean b => if b then "true" else "false"
  | JsCell.undef => "undefined"

/-- `path.parse(x).base` as called on a cell value inside the row loop.
`path.parse` requires a string argument; on the `undefined` produced by
indexing the un-awaited Promise it throws a TypeError. -/
def pathParseBaseJs : JsCell → Except String String
  | JsCell.str s => Except.ok s |>.map pathBase
  | _ => Except.error "TypeError: path.parse received a non-string argument"

/-- JavaScript `x < n` where `x` may be `undefined` (`none`): comparisons
with `undefined` coerce to NaN and are false. -/
def jsLtNum : Option Nat → Nat → Bool
  | none, _ => false
  | some a, b => decide (a < b)

/-- JavaScript `x > n` where `x` may be `undefined`. -/
def jsGtNum : Option Nat → Nat → Bool
  | none, _ => false
  | some a, b => decide (a > b)

/-- One iteration of the row loop of lines 725-752, faithful to the
JavaScript semantics of the source: `FindInLocation` is invoked *without*
`await` (line 728), so `foundFiles` is a pending Promise object —
`foundFiles.length` is `undefined` (modelled by `none`), both the zero-match
and the multi-match branches are skipped, and `foundFiles[0]` is `undefined`.
The `undefined` is written into every results column (padding the row), and
the success message then evaluates `path.parse(foundFile).base`, which
throws.  Returns the row state, the report state and the thrown error, if
any (the row mutation performed before the throw is kept, as in the
source). -/
def processRow (rule : Rule) (colToMatch : HeaderRef) (colsForResults : List HeaderRef)
    (rowsStartIndex : Nat) (i : Nat) (row : List JsCell) (rep : ReportState) :
    List JsCell × ReportState × Option String :=
  let toMatch := row.getD colToMatch.idx JsCell.undef
  let foundFilesLength : Option Nat := none
  let rowIndex := i + rowsStartIndex
  if jsLtNum foundFilesLength 1 then
    (row,
     addWarningRow rep
       ["Could not find a match for value " ++ jsCellToString toMatch
         ++ " (column " ++ colToMatch.value ++ ", row " ++ toString rowIndex ++ ")!"],
     none)
  else if jsGtNum foundFilesLength 1 then
    (row,
     addWarningRow rep
       ["Value " ++ jsCellToString toMatch ++ " (column " ++ colToMatch.value
         ++ ", row " ++ toString rowIndex
         ++ ") have matched multiple files! Only one file is allowed to be matched!"],
     none)
  else
    let foundFileComputation : Except String JsCell :=
      if rule.resultsAppendMethod = "full" && rule.useDifferentRootLocation ≠ "" then
        (pathParseBaseJs JsCell.undef).map
          (fun b => JsCell.str (rule.useDifferentRootLocation ++ "/" ++ b))
      else Except.ok JsCell.undef
    match foundFileComputation with
    | Except.error e => (row, rep, some e)
    | Except.ok foundFile =>
        let row' := colsForResults.foldl (fun r col => jsSetCell r col.idx foundFile) row
        match pathParseBaseJs foundFile with
        | Except.error e => (row', rep, some e)
        | Except.ok base =>
            (row',
             addSuccessRow rep
               ["Column " ++ colToMatch.value ++ ", row " ++ toString rowIndex
                 ++ ", value " ++ jsCellToString toMatch ++ " matched file " ++ base ++ "."],
             none)

/-- The row loop of lines 725-752: process rows in order until the first
thrown error; rows after the throw keep their previous state. -/
def processRows (rule : Rule) (colToMatch : HeaderRef) (colsForResults : List HeaderRef)
    (rowsStartIndex : Nat) :
    Nat → List (List JsCell) → ReportState → List (List JsCell) × ReportState × Option String
  | _, [], rep => ([], rep, none)
  | i, row :: rest, rep =>
      let rr := processRow rule colToMatch colsForResults rowsStartIndex i row rep
      match rr.2.2 with
      | some e => (rr.1 :: rest, rr.2.1, some e)
      | none =>
          let rest' := processRows rule colToMatch colsForResults rowsStartIndex (i + 1) rest rr.2.1
          (rr.1 :: rest'.1, rest'.2.1, rest'.2.2)

/-- Processing of one rule (lines 690-753): locate the column to match
(absent → one narrative per `ifColumnToMatchNotPresent` and skip; duplicated
→ one error narrative and skip), append the results column when absent
(the source guard `columnsForResults < 1` coerces the array and is
equivalent to a length check for the object arrays produced by
`findAllHeaders`), then run the row loop. -/
def processRule (t : CsvTable) (rep : ReportState) (m : MatchingRule) :
    CsvTable × ReportState × Option String :=
  let rule := defaultRule m
  let colsToMatch := findAllHeaders t.headers rule.columnToMatch
  if colsToMatch.length < 1 then
    let message := "There were no column " ++ rule.columnToMatch
      ++ " present, therefore, no file matching has been made."
    let rep' :=
      if rule.ifColumnToMatchNotPresent = "success" then addSuccessRow rep [message]
      else if rule.ifColumnToMatchNotPresent = "warning" then addWarningRow rep [message]
      else addErrorRow rep [message]
    (t, rep', none)
  else if colsToMatch.length > 1 then
    (t, addErrorRow rep
      ["Csv file cannot contain more than one column with title " ++ rule.columnToMatch ++ "."],
     none)
  else
    let colToMatch := colsToMatch.getD 0 ⟨0, ""⟩
    let colsForResultsPre := findAllHeaders t.headers rule.columnForResults
    let t1 := if colsForResultsPre.length < 1 then appendResultsColumn t rule.columnForResults else t
    let colsForResults :=
      if colsForResultsPre.length < 1 then findAllHeaders t1.headers rule.columnForResults
      else colsForResultsPre
    let rr := processRows rule colToMatch colsForResults t1.rowsStartIndex 0 t1.rows rep
    ({ t1 with rows := rr.1 }, rr.2.1, rr.2.2)

/-- The rule loop of line 690: rules are applied in order until the first
thrown error. -/
def processRules : CsvTable → ReportState → List MatchingRule →
    CsvTable × ReportState × Option String
  | t, rep, [] => (t, rep, none)
  | t, rep, m :: rest =>
      let rr := processRule t rep m
      match rr.2.2 with
      | some e => (rr.1, rr.2.1, some e)
      | none => processRules rr.1 rr.2.1 rest

/-- The observable outcome of a `MatchFilesToCsvData` call: the thrown error
(if any), the state of the loaded table at the end of the run (or at the
moment of the throw; `none` when the call failed validation before the CSV
file was loaded), and the report. -/
structure ReconcileOutcome where
  table : Option CsvTable
  report : ReportState
  error : Option String
deriving DecidableEq, Repr

/-- `MatchFilesToCsvData` (lines 652-764) over a modelled filesystem:
`fsPaths` are the existing paths and `csvContent` the raw cell texts of the
file at `csvLocation`.  Validation happens first; only afterwards is the CSV
loaded and are the rules applied. -/
def matchFilesToCsvData (fsPaths : List String) (csvContent : List (List String))
    (o : MatchOptions) : ReconcileOutcome :=
  match validateMatchOptions fsPaths o with
  | some e => ⟨none, emptyReport, some e⟩
  | none =>
      let t := csvLoad true csvContent
      let rr := processRules t emptyReport o.matching
      ⟨some rr.1, rr.2.1, rr.2.2⟩

/-! ### Shared lemmas -/

/-- Prefix matching of a dot-free pattern is list-prefix matching. -/
theorem regexMatchAt_no_dot (pat : List Char) :
    ∀ hay : List Char, '.' ∉ pat → regexMatchAt pat hay = pat.isPrefixOf hay := by
  induction pat with
  | nil => intro hay _; cases hay <;> rfl
  | cons p ps ih =>
      intro hay hnd
      cases hay with
      | nil => rfl
      | cons h hs =>
          have hp : ¬(p = '.') := fun hc => hnd (hc ▸ List.mem_cons_self p ps)
          have hps : '.' ∉ ps := fun hc => hnd (List.mem_cons_of_mem p hc)
          simp only [regexMatchAt, List.isPrefixOf, ih hs hps]
          have : (p == '.') = false := by simpa using hp
          simp [this]

/-- Regex search with a dot-free pattern is substring containment. -/
theorem jsSearchDot_no_dot (pat : List Char) (hnd : '.' ∉ pat) :
    ∀ hay : List Char, jsSearchDot pat hay = containsSub pat hay := by
  intro hay
  induction hay with
  | nil =>
      simp only [jsSearchDot, containsSub]
      cases pat with
      | nil => rfl
      | cons p ps => rfl
  | cons h hs ih =>
      simp only [jsSearchDot, containsSub, ih, regexMatchAt_no_dot pat (h :: hs) hnd]

/-- Elements of the parsed extension list arise from normalising some raw
entry: space removal, lower-casing, leading dot enforced. -/
theorem parseAllowedExt_mem (exts : List (List Char)) :
    ∀ x ∈ parseAllowedExt exts,
      ∃ raw ∈ exts, x = enforceDot (lowerList (raw.filter (fun c => !(c == ' ')))) := by
  have aux : ∀ (l : List (List Char)) (acc : List (List Char)) (x : List Char),
      x ∈ List.foldl parseExtStep acc l →
      x ∈ acc ∨ ∃ raw ∈ l, x = enforceDot (lowerList (raw.filter (fun c => !(c == ' ')))) := by
    intro l
    induction l with
    | nil => intro acc x hx; exact Or.inl hx
    | cons e rest ih =>
        intro acc x hx
        rcases ih (parseExtStep acc e) x hx with hacc | ⟨raw, hraw, hx'⟩
        · by_cases hemp : (lowerList (e.filter (fun c => !(c == ' ')))).isEmpty
          · left
            simpa [parseExtStep, hemp] using hacc
          · by_cases hdup :
              acc.contains (enforceDot (lowerList (e.filter (fun c => !(c == ' ')))))
            · left
              have hstep : parseExtStep acc e = acc := by
                simp only [parseExtStep]
                rw [if_neg (by simpa using hemp), if_pos hdup]
              rwa [hstep] at hacc
            · have hstep : parseExtStep acc e =
                  acc ++ [enforceDot (lowerList (e.filter (fun c => !(c == ' '))))] := by
                simp only [parseExtStep]
                rw [if_neg (by simpa using hemp), if_neg hdup]
              rw [hstep] at hacc
              rcases List.mem_append.mp hacc with h1 | h2
              · exact Or.inl h1
              · right
                exact ⟨e, List.mem_cons_self e rest, List.mem_singleton.mp h2⟩
        · exact Or.inr ⟨raw, List.mem_cons_of_mem e hraw, hx'⟩
  intro x hx
  rcases aux exts [] x hx with h | h
  · cases h
  · exact h

/-- An enforced-dot extension starts with a dot. -/
theorem enforceDot_head (e : List Char) : (enforceDot e).head? = some '.' := by
  cases e with
  | nil => rfl
  | cons c t =>
      by_cases hc : c = '.'
      · subst hc; rfl
      · simp only [enforceDot]
        split
        · simp_all
        · rfl

/-- `pushOne` touches only the result lists, never the counters. -/
theorem pushOne_counters (fp nm : List Char) (a : ScanResponse) (rt : String) :
    (pushOne fp nm a rt).entitiesTested = a.entitiesTested
      ∧ (pushOne fp nm a rt).foldersScanned = a.foldersScanned := by
  unfold pushOne
  split_ifs <;> exact ⟨rfl, rfl⟩

/-- Folding `pushOne` over the return kinds leaves the counters alone. -/
theorem foldl_pushOne_counters (fp nm : List Char) :
    ∀ (rts : List String) (a : ScanResponse),
      ((rts.foldl (pushOne fp nm) a)).entitiesTested = a.entitiesTested
        ∧ ((rts.foldl (pushOne fp nm) a)).foldersScanned = a.foldersScanned := by
  intro rts
  induction rts with
  | nil => intro a; exact ⟨rfl, rfl⟩
  | cons rt rest ih =>
      intro a
      have h := pushOne_counters fp nm a rt
      have h2 := ih (pushOne fp nm a rt)
      exact ⟨h2.1.trans h.1, h2.2.trans h.2⟩

/-- `pushResults` leaves the visit counters alone. -/
theorem pushResults_counters (o : ScanOpts) (fp nm : List Char) (acc : ScanResponse) :
    (pushResults o fp nm acc).entitiesTested = acc.entitiesTested
      ∧ (pushResults o fp nm acc).foldersScanned = acc.foldersScanned := by
  unfold pushResults
  exact foldl_pushOne_counters fp nm o.returnType acc

/-- Without a recursion callback, one entry step counts exactly one tested
entity and visits no further folder. -/
theorem entryStep_none_counters (o : ScanOpts) (needle dp : List Char)
    (a : ScanResponse) (e : FsEntry) :
    (entryStep o needle dp none a e).entitiesTested = a.entitiesTested + 1
      ∧ (entryStep o needle dp none a e).foldersScanned = a.foldersScanned := by
  cases e with
  | file nm =>
      unfold entryStep
      split_ifs with h
      · have := pushResults_counters o (joinPath dp (FsEntry.name (FsEntry.file nm)))
          (FsEntry.name (FsEntry.file nm))
          { a with entitiesTested := a.entitiesTested + 1 }
        exact ⟨this.1, this.2⟩
      · exact ⟨rfl, rfl⟩
  | dir nm sub =>
      unfold entryStep
      split_ifs with h
      · have := pushResults_counters o (joinPath dp (FsEntry.name (FsEntry.dir nm sub)))
          (FsEntry.name (FsEntry.dir nm sub))
          { a with entitiesTested := a.entitiesTested + 1 }
        exact ⟨this.1, this.2⟩
      · exact ⟨rfl, rfl⟩

/-- A depth-0 scan tests exactly the listed entries and scans exactly one
folder. -/
theorem scanEntries_zero_counters (o : ScanOpts) (needle dirPath : List Char) :
    ∀ (es : List FsEntry) (acc : ScanResponse),
      (scanEntries o needle 0 dirPath es acc).entitiesTested
          = acc.entitiesTested + es.length
        ∧ (scanEntries o needle 0 dirPath es acc).foldersScanned
          = acc.foldersScanned + 1 := by
  have aux : ∀ (es : List FsEntry) (b : ScanResponse),
      (es.foldl (entryStep o needle dirPath none) b).entitiesTested
          = b.entitiesTested + es.length
        ∧ (es.foldl (entryStep o needle dirPath none) b).foldersScanned
          = b.foldersScanned := by
    intro es
    induction es with
    | nil => intro b; exact ⟨rfl, rfl⟩
    | cons e rest ih =>
        intro b
        have h1 := entryStep_none_counters o needle dirPath b e
        have h2 := ih (entryStep o needle dirPath none b e)
        constructor
        · rw [List.foldl_cons, h2.1, h1.1, List.length_cons]
          omega
        · rw [List.foldl_cons, h2.2, h1.2]
  intro es acc
  simpa [scanEntries] using aux es { acc with foldersScanned := acc.foldersScanned + 1 }

/-- Scanning the tree truncated at the scan depth gives the same response as
scanning the full tree: the scan never looks below the truncation level. -/
theorem scanEntries_trunc (o : ScanOpts) (needle : List Char) :
    ∀ (d : Nat) (dirPath : List Char) (es : List FsEntry) (acc : ScanResponse),
      scanEntries o needle d dirPath (truncEntries d es) acc
        = scanEntries o needle d dirPath es acc := by
  intro d
  induction d with
  | zero =>
      intro dirPath es acc
      simp only [scanEntries, truncEntries]
      rw [List.foldl_map]
      congr 1
      funext a e
      cases e with
      | file nm => rfl
      | dir nm sub => rfl
  | succ k ih =>
      intro dirPath es acc
      simp only [scanEntries, truncEntries]
      rw [List.foldl_map]
      congr 1
      funext a e
      cases e with
      | file nm => rfl
      | dir nm sub =>
          simp only [entryStep, entryKept, FsEntry.name, FsEntry.isDirB, ih]

/-! ### Claim C2 -/

/-- C2: for every directory tree and every depth option d passed to
`FindInLocation`, the traversal never visits any directory more than d+1
levels below the haystack root — scanning the tree truncated at that level
(the contents of directories d+1 levels down removed) gives the identical
response — and with the default depth 0 only the entries of the root directory
are tested (`entitiesTested` equals the number of root entries and exactly
one folder is scanned). -/
theorem findInLocation_depth_bounded :
    (∀ (fo : FindOptions) (needle rootPath : List Char) (es : List FsEntry),
        findInLocation needle (some (truncEntries fo.depth.toNat es)) rootPath fo
          = findInLocation needle (some es) rootPath fo)
    ∧ (∀ (o : ScanOpts) (needle dirPath : List Char) (es : List FsEntry) (acc : ScanResponse),
        (scanEntries o needle 0 dirPath es acc).entitiesTested
            = acc.entitiesTested + es.length
          ∧ (scanEntries o needle 0 dirPath es acc).foldersScanned
            = acc.foldersScanned + 1)
    ∧ (∀ (needle rootPath : List Char) (es : List FsEntry),
        ∃ r, findInLocation needle (some es) rootPath {} = Except.ok (some r)
          ∧ r.entitiesTested = es.length ∧ r.foldersScanned = 1) := by
  refine ⟨?_, ?_, ?_⟩
  · intro fo needle rootPath es
    simp only [findInLocation]
    split_ifs <;>
      first
        | rfl
        | exact congrArg (fun r => Except.ok (some r)) (scanEntries_trunc _ _ _ _ _ _)
  · intro o needle dirPath es acc
    exact scanEntries_zero_counters o needle dirPath es acc
  · intro needle rootPath es
    refine ⟨scanEntries (mkScanOpts {}) (lowerList needle) 0 rootPath es emptyResponse,
      rfl, ?_, ?_⟩
    · have h := scanEntries_zero_counters (mkScanOpts {}) (lowerList needle) rootPath es
        emptyResponse
      simpa [emptyResponse] using h.1
    · have h := scanEntries_zero_counters (mkScanOpts {}) (lowerList needle) rootPath es
        emptyResponse
      simpa [emptyResponse] using h.2

/-! ### Claim C3 -/

/-- C3 counterexample: with `partialMatch` true, the needle "a.c" matches the
entry named "abc" (the needle is used as a regular expression by
`hay.search(needle)`, and `.` matches any character), although "abc" does not
contain "a.c" as a substring.  This refutes "the entry is matched exactly
when its name contains the needle as a substring". -/
theorem findInLocation_partial_regex_counterexample :
    findInLocation ("a.c".toList) (some [FsEntry.file ("abc".toList)]) ("/scan".toList)
        { partialMatch := true, returnType := ["name"] }
      = Except.ok (some { emptyResponse with
                            nameResults := ["abc".toList], foldersScanned := 1,
                            entitiesTested := 1, resultsFound := 1 })
    ∧ containsSub (lowerList ("a.c".toList)) (lowerList ("abc".toList)) = false := by
  exact ⟨rfl, by decide⟩

/-- C3 (amended): the exact-match half of the claim holds as stated — with
`partialMatch` false an entry is matched exactly when its case-normalised
name equals the case-normalised needle.  The partial half holds with the
needle read as a regular expression; substring containment coincides with
it only for needles free of regex metacharacters (no `regexSpecialChar`),
the fragment on which the literal-matching model agrees with JavaScript. -/
theorem nameMatchTest_partial_amended (o : ScanOpts) (needle hay : List Char) :
    (o.partialMatch = true → (∀ c ∈ needle, regexSpecialChar c = false) →
        nameMatchTest o needle hay
          = containsSub needle (if o.caseSensitive then hay else lowerList hay))
    ∧ (o.partialMatch = false →
        nameMatchTest o needle hay
          = ((if o.caseSensitive then hay else lowerList hay) == needle)) := by
  constructor
  · intro hp hlit
    have hnd : '.' ∉ needle := by
      intro hmem
      have hc := hlit '.' hmem
      simp [regexSpecialChar] at hc
    simp only [nameMatchTest, hp, if_true]
    exact jsSearchDot_no_dot needle hnd _
  · intro hp
    simp only [nameMatchTest, hp, Bool.false_eq_true, if_false]

/-- Witness for `nameMatchTest_partial_amended` at concrete inputs. -/
theorem nameMatchTest_partial_amended_witness :
    nameMatchTest ⟨[], true, true, false, ["full"], "files"⟩ ("b".toList) ("aBc".toList)
        = containsSub ("b".toList) (lowerList ("aBc".toList))
      ∧ nameMatchTest ⟨[], true, false, false, ["full"], "files"⟩ ("abc".toList) ("ABC".toList)
        = (lowerList ("ABC".toList) == "abc".toList) :=
  ⟨(nameMatchTest_partial_amended ⟨[], true, true, false, ["full"], "files"⟩
      ("b".toList) ("aBc".toList)).1 rfl (by decide),
   (nameMatchTest_partial_amended ⟨[], true, false, false, ["full"], "files"⟩
      ("abc".toList) ("ABC".toList)).2 rfl⟩

/-! ### Claim C4 -/

/-- With return kind list `["name"]`, `pushResults` appends exactly the entry
name to the name-result list. -/
theorem pushResults_name_single (o : ScanOpts) (h : o.returnType = ["name"])
    (fp nm : List Char) (acc : ScanResponse) :
    (pushResults o fp nm acc).nameResults = acc.nameResults ++ [nm] := by
  simp [pushResults, h, pushOne]

/-- With return kind list `["name"]`, one no-recursion entry step appends the
entry name exactly when the entry is kept. -/
theorem entryStep_none_nameResults (o : ScanOpts) (h : o.returnType = ["name"])
    (needle dp : List Char) (a : ScanResponse) (e : FsEntry) :
    (entryStep o needle dp none a e).nameResults
      = (if entryKept o needle e then a.nameResults ++ [e.name] else a.nameResults) := by
  cases e with
  | file nm =>
      unfold entryStep
      split_ifs with hk
      · exact pushResults_name_single o h _ _ _
      · rfl
  | dir nm sub =>
      unfold entryStep
      split_ifs with hk
      · exact pushResults_name_single o h _ _ _
      · rfl

/-- With return kind list `["name"]`, a depth-0 scan returns exactly the
names of the kept entries, in order. -/
theorem scanEntries_zero_nameResults (o : ScanOpts) (h : o.returnType = ["name"])
    (needle dirPath : List Char) :
    ∀ (es : List FsEntry) (acc : ScanResponse),
      (scanEntries o needle 0 dirPath es acc).nameResults
        = acc.nameResults ++ (es.filter (entryKept o needle)).map FsEntry.name := by
  have aux : ∀ (es : List FsEntry) (b : ScanResponse),
      (es.foldl (entryStep o needle dirPath none) b).nameResults
        = b.nameResults ++ (es.filter (entryKept o needle)).map FsEntry.name := by
    intro es
    induction es with
    | nil => intro b; simp
    | cons e rest ih =>
        intro b
        rw [List.foldl_cons, ih, entryStep_none_nameResults o h, List.filter_cons]
        by_cases hk : entryKept o needle e
        · simp [hk]
        · simp [hk]
  intro es acc
  simpa [scanEntries] using aux es { acc with foldersScanned := acc.foldersScanned + 1 }

/-- C4: with an empty `allowedExt` every extension passes the filter; with a
non-empty parsed list an entry passes exactly when its own lower-cased
extension is in the list, whose members all carry a leading dot and arise by
normalising (space removal, lower-casing, dot enforcement) some configured
entry; the extension filter is applied only after the name test passes (a
name-test failure excludes the entry regardless of extension); and at depth
0 with return kind "name" the returned names are exactly those of the kept
entries. -/
theorem extension_filter_spec (fo : FindOptions) (needle nm : List Char) (e : FsEntry) :
    (fo.allowedExt = [] → extAllowed (mkScanOpts fo) nm = true)
    ∧ (parseAllowedExt fo.allowedExt ≠ [] →
        extAllowed (mkScanOpts fo) nm
          = (parseAllowedExt fo.allowedExt).contains (lowerList (extOf nm)))
    ∧ (∀ x ∈ parseAllowedExt fo.allowedExt,
        x.head? = some '.'
          ∧ ∃ raw ∈ fo.allowedExt,
              x = enforceDot (lowerList (raw.filter (fun c => !(c == ' ')))))
    ∧ (nameMatchTest (mkScanOpts fo) needle e.name = false →
        entryKept (mkScanOpts fo) needle e = false)
    ∧ ((mkScanOpts fo).returnType = ["name"] →
        ∀ (dirPath : List Char) (es : List FsEntry) (acc : ScanResponse),
          (scanEntries (mkScanOpts fo) needle 0 dirPath es acc).nameResults
            = acc.nameResults
                ++ (es.filter (entryKept (mkScanOpts fo) needle)).map FsEntry.name) := by
  refine ⟨?_, ?_, ?_, ?_, ?_⟩
  · intro hempty
    simp [extAllowed, mkScanOpts, hempty, parseAllowedExt]
  · intro hne
    have hne' : ((parseAllowedExt fo.allowedExt).isEmpty) = false := by
      simpa [List.isEmpty_iff] using hne
    simp [extAllowed, mkScanOpts, hne']
  · intro x hx
    refine ⟨?_, parseAllowedExt_mem fo.allowedExt x hx⟩
    rcases parseAllowedExt_mem fo.allowedExt x hx with ⟨raw, _, hx'⟩
    rw [hx']
    exact enforceDot_head _
  · intro hname
    simp [entryKept, hname]
  · intro hrt dirPath es acc
    exact scanEntries_zero_nameResults (mkScanOpts fo) hrt needle dirPath es acc

/-- Witness for `extension_filter_spec` at concrete inputs. -/
theorem extension_filter_spec_witness :
    extAllowed (mkScanOpts { allowedExt := [] }) ("a.txt".toList) = true
      ∧ extAllowed (mkScanOpts { allowedExt := ["PDF ".toList] }) ("b.tif".toList)
        = (parseAllowedExt ["PDF ".toList]).contains (lowerList (extOf ("b.tif".toList)))
      ∧ entryKept (mkScanOpts { allowedExt := [] }) ("x".toList)
          (FsEntry.file ("y.pdf".toList)) = false
      ∧ (scanEntries (mkScanOpts { returnType := ["name"] }) ("a".toList) 0
            ("/r".toList) [FsEntry.file ("a.pdf".toList)] emptyResponse).nameResults
        = emptyResponse.nameResults
            ++ (([FsEntry.file ("a.pdf".toList)]).filter
                  (entryKept (mkScanOpts { returnType := ["name"] }) ("a".toList))).map
                FsEntry.name :=
  ⟨(extension_filter_spec { allowedExt := [] } ("x".toList) ("a.txt".toList)
      (FsEntry.file [])).1 rfl,
   (extension_filter_spec { allowedExt := ["PDF ".toList] } ("x".toList) ("b.tif".toList)
      (FsEntry.file [])).2.1 (by decide),
   (extension_filter_spec { allowedExt := [] } ("x".toList) ("q".toList)
      (FsEntry.file ("y.pdf".toList))).2.2.2.1 (by decide),
   (extension_filter_spec { returnType := ["name"] } ("a".toList) ("q".toList)
      (FsEntry.file [])).2.2.2.2 (by decide) ("/r".toList)
      [FsEntry.file ("a.pdf".toList)] emptyResponse⟩

/-! ### Claim C5 -/

/-- C5 counterexample: `ifHaystackNotFound = "toString"` is not one of the
allowed option values, yet the `!allowedIfHaystackNotFound[...]` bracket
lookup of line 452 finds the inherited `Object.prototype.toString` and the
call passes validation: with an existing haystack the directory is scanned
(one folder visited, one entity tested), and with a missing haystack the
call returns `undefined` instead of failing.  This refutes "for every call
with an invalid ... ifHaystackNotFound option value, validation fails
before any directory I/O occurs". -/
theorem findInLocation_prototype_key_counterexample :
    findInLocation ("a".toList) (some [FsEntry.file ("a.txt".toList)]) ("/r".toList)
        { ifHaystackNotFound := some "toString" }
      = Except.ok (some { emptyResponse with
                            full := [("/r/a.txt".toList)], foldersScanned := 1,
                            entitiesTested := 1, resultsFound := 1 })
    ∧ findInLocation ("a".toList) none ("/r".toList)
          { ifHaystackNotFound := some "toString" }
        = Except.ok none := by
  exact ⟨rfl, rfl⟩

/-- A true Boolean has a negation that is not true. -/
theorem not_bnot_true_of_true {b : Bool} (h : b = true) : ¬((!b) = true) := by
  simp [h]

/-- A false Boolean has a true negation. -/
theorem bnot_true_of_false {b : Bool} (h : b = false) : (!b) = true := by
  simp [h]

/-- C5 (amended): a `returnType`, `lookFor` or `ifHaystackNotFound` value
rejected by the checks of lines 452-455 makes `FindInLocation` fail with
the same error for every filesystem state (validation happens before any
directory I/O); with a missing haystack, `"returnEmptyResults"` yields the
empty response with all statistics counters zero and `"throwError"` fails —
but the `ifHaystackNotFound` bracket lookup also passes the inherited
`Object.prototype` names, for which a missing haystack yields `undefined`
and an existing haystack is scanned normally. -/
theorem findInLocation_validation (fo : FindOptions) (needle rootPath : List Char) :
    (findOptionsValid fo = false →
        ∃ e, ∀ hay : Option (List FsEntry),
          findInLocation needle hay rootPath fo = Except.error e)
    ∧ (findOptionsValid fo = true →
        jsOrDefault fo.ifHaystackNotFound "returnEmptyResults" = "returnEmptyResults" →
        findInLocation needle none rootPath fo = Except.ok (some emptyResponse))
    ∧ (findOptionsValid fo = true →
        jsOrDefault fo.ifHaystackNotFound "returnEmptyResults" = "throwError" →
        findInLocation needle none rootPath fo
          = Except.error "Haystack provided does not exist")
    ∧ (findOptionsValid fo = true →
        jsOrDefault fo.ifHaystackNotFound "returnEmptyResults" ≠ "returnEmptyResults" →
        jsOrDefault fo.ifHaystackNotFound "returnEmptyResults" ≠ "throwError" →
        findInLocation needle none rootPath fo = Except.ok none
          ∧ ∀ es : List FsEntry, ∃ r,
              findInLocation needle (some es) rootPath fo = Except.ok (some r)) := by
  refine ⟨?_, ?_, ?_, ?_⟩
  · intro hinv
    rw [findOptionsValid] at hinv
    simp only [Bool.and_eq_false_iff] at hinv
    rcases hinv with (h | h) | h
    · exact ⟨"Option not allowed in field ifHaystackNotFound",
        fun hay => by
          simp only [findInLocation]
          rw [if_pos (bnot_true_of_false h)]⟩
    · cases hc1 : (decide (jsOrDefault fo.ifHaystackNotFound "returnEmptyResults"
              = "returnEmptyResults")
          || decide (jsOrDefault fo.ifHaystackNotFound "returnEmptyResults" = "throwError")
          || objectPrototypeKeys.contains
              (jsOrDefault fo.ifHaystackNotFound "returnEmptyResults")) with
      | false =>
          exact ⟨"Option not allowed in field ifHaystackNotFound",
            fun hay => by
              simp only [findInLocation]
              rw [if_pos (bnot_true_of_false hc1)]⟩
      | true =>
          exact ⟨"Wrong returnType entered",
            fun hay => by
              simp only [findInLocation]
              rw [if_neg (not_bnot_true_of_true hc1), if_pos (bnot_true_of_false h)]⟩
    · cases hc1 : (decide (jsOrDefault fo.ifHaystackNotFound "returnEmptyResults"
              = "returnEmptyResults")
          || decide (jsOrDefault fo.ifHaystackNotFound "returnEmptyResults" = "throwError")
          || objectPrototypeKeys.contains
              (jsOrDefault fo.ifHaystackNotFound "returnEmptyResults")) with
      | false =>
          exact ⟨"Option not allowed in field ifHaystackNotFound",
            fun hay => by
              simp only [findInLocation]
              rw [if_pos (bnot_true_of_false hc1)]⟩
      | true =>
          cases hc2 : ((mkScanOpts fo).returnType.all fun rt =>
              decide (rt = "full") || decide (rt = "name") || decide (rt = "nameProper")) with
          | false =>
              exact ⟨"Wrong returnType entered",
                fun hay => by
                  simp only [findInLocation]
                  rw [if_neg (not_bnot_true_of_true hc1), if_pos (bnot_true_of_false hc2)]⟩
          | true =>
              exact ⟨"Value passed to option lookFor is invalid",
                fun hay => by
                  simp only [findInLocation]
                  rw [if_neg (not_bnot_true_of_true hc1),
                    if_neg (not_bnot_true_of_true hc2), if_pos (bnot_true_of_false h)]⟩
  · intro hval hret
    rw [findOptionsValid] at hval
    simp only [Bool.and_eq_true] at hval
    simp only [findInLocation]
    rw [if_neg (not_bnot_true_of_true hval.1.1), if_neg (not_bnot_true_of_true hval.1.2),
      if_neg (not_bnot_true_of_true hval.2)]
    simp [hret]
  · intro hval hret
    rw [findOptionsValid] at hval
    simp only [Bool.and_eq_true] at hval
    simp only [findInLocation]
    rw [if_neg (not_bnot_true_of_true hval.1.1), if_neg (not_bnot_true_of_true hval.1.2),
      if_neg (not_bnot_true_of_true hval.2)]
    simp [hret]
  · intro hval hr1 hr2
    rw [findOptionsValid] at hval
    simp only [Bool.and_eq_true] at hval
    constructor
    · simp only [findInLocation]
      rw [if_neg (not_bnot_true_of_true hval.1.1), if_neg (not_bnot_true_of_true hval.1.2),
        if_neg (not_bnot_true_of_true hval.2)]
      simp [hr1, hr2]
    · intro es
      refine ⟨scanEntries (mkScanOpts fo)
          (if fo.caseSensitive then needle else lowerList needle)
          fo.depth.toNat rootPath es emptyResponse, ?_⟩
      simp only [findInLocation]
      rw [if_neg (not_bnot_true_of_true hval.1.1), if_neg (not_bnot_true_of_true hval.1.2),
        if_neg (not_bnot_true_of_true hval.2)]

/-- Witness for `findInLocation_validation` at concrete inputs: an invalid
`returnType` fails identically on every filesystem state, valid default
options on a missing haystack return the empty response, `"throwError"`
fails on a missing haystack, and the prototype-key value `"toString"`
passes validation and yields `undefined` on a missing haystack. -/
theorem findInLocation_validation_witness :
    (∃ e, ∀ hay : Option (List FsEntry),
        findInLocation ("x".toList) hay ("/r".toList) { returnType := ["bogus"] }
          = Except.error e)
    ∧ findInLocation ("x".toList) none ("/r".toList) {} = Except.ok (some emptyResponse)
    ∧ findInLocation ("x".toList) none ("/r".toList)
          { ifHaystackNotFound := some "throwError" }
        = Except.error "Haystack provided does not exist"
    ∧ findInLocation ("x".toList) none ("/r".toList)
          { ifHaystackNotFound := some "valueOf" }
        = Except.ok none :=
  ⟨(findInLocation_validation { returnType := ["bogus"] } ("x".toList) ("/r".toList)).1
      (by decide),
   (findInLocation_validation {} ("x".toList) ("/r".toList)).2.1 (by decide) rfl,
   (findInLocation_validation { ifHaystackNotFound := some "throwError" }
      ("x".toList) ("/r".toList)).2.2.1 (by decide) rfl,
   ((findInLocation_validation { ifHaystackNotFound := some "valueOf" }
      ("x".toList) ("/r".toList)).2.2.2 (by decide) (by decide) (by decide)).1⟩

/-! ### Claim C6 -/

/-- C6 counterexample: reconciling headers `["ID"]` with rows `["A1"]`,
`["B2"]` under a rule whose `columnForResults` ("FileMatchResults") is
absent appends the results header, but only the first row (the one written
before the run throws) reaches the new column count: the second row keeps
one column while `headers` has two.  This refutes "every row of the table
has the same column count as the headers sequence" after the append. -/
theorem results_column_append_counterexample :
    (matchFilesToCsvData ["/in/d.csv", "/scan"] [["ID"], ["A1"], ["B2"]]
        { csvLocation := some "/in/d.csv",
          matching := [{ columnToMatch := some "ID",
                         resultsAppendMethod := some "name",
                         scanLocation := some "/scan" }] }).table
      = some ⟨[JsCell.str "ID", JsCell.str "FileMatchResults"],
              [[JsCell.str "A1", JsCell.undef], [JsCell.str "B2"]], 2⟩
    ∧ ¬ (∀ row ∈ [[JsCell.str "A1", JsCell.undef], [JsCell.str "B2"]],
          row.length = [JsCell.str "ID", JsCell.str "FileMatchResults"].length) := by
  exact ⟨by decide, by decide⟩

/-- C6 (amended): appending the results column extends only the headers —
no row is padded at that moment — and a row reaches the header column
count only when a result value is written into it (JavaScript index
assignment pads the row up to the written index); rows that are never
written to keep their original, shorter column count. -/
theorem results_column_append_amended (t : CsvTable) (nm : String)
    (row : List JsCell) (i : Nat) (v : JsCell) :
    (appendResultsColumn t nm).rows = t.rows
    ∧ (appendResultsColumn t nm).headers.length = t.headers.length + 1
    ∧ (row.length ≤ i → (jsSetCell row i v).length = i + 1)
    ∧ (i < row.length → (jsSetCell row i v).length = row.length) := by
  refine ⟨rfl, by simp [appendResultsColumn], ?_, ?_⟩
  · intro h
    have hni : ¬ i < row.length := by omega
    simp only [jsSetCell, hni, if_false]
    simp
    omega
  · intro h
    simp [jsSetCell, h]

/-- Witness for `results_column_append_amended` at concrete inputs. -/
theorem results_column_append_amended_witness :
    (appendResultsColumn ⟨[JsCell.str "ID"], [[JsCell.str "A1"]], 2⟩ "FileMatchResults").rows
        = [[JsCell.str "A1"]]
    ∧ (jsSetCell [] 1 JsCell.undef).length = 2
    ∧ (jsSetCell [JsCell.str "x"] 0 JsCell.undef).length = 1 :=
  ⟨(results_column_append_amended ⟨[JsCell.str "ID"], [[JsCell.str "A1"]], 2⟩
      "FileMatchResults" [] 0 JsCell.undef).1,
   (results_column_append_amended ⟨[], [], 0⟩ "x" [] 1 JsCell.undef).2.2.1 (by decide),
   (results_column_append_amended ⟨[], [], 0⟩ "x" [JsCell.str "x"] 0
      JsCell.undef).2.2.2 (by decide)⟩

/-! ### Claim C7 -/

/-- A Boolean whose negation is refuted is true. -/
theorem bool_of_not_not {b : Bool} (h : ¬((!b) = true)) : b = true := by
  cases hb : b
  · exact absurd (by simp [hb]) h
  · rfl

/-- If `firstSome` finds nothing, every element is `none`. -/
theorem firstSome_eq_none :
    ∀ (l : List (Option String)), firstSome l = none → ∀ x ∈ l, x = none := by
  intro l
  induction l with
  | nil => intro _ x hx; cases hx
  | cons a rest ih =>
      intro h x hx
      cases a with
      | some e => cases h
      | none =>
          rcases List.mem_cons.mp hx with hx | hx
          · exact hx
          · exact ih h x hx

/-- A rule that passes `validateRule` has all its enumerated fields legal, a
non-empty scan location and an existing scan location. -/
theorem validateRule_none (fsPaths : List String) (r : Rule)
    (h : validateRule fsPaths r = none) :
    ["full", "partial"].contains r.matchMethod = true
    ∧ ["full", "name", "nameProper"].contains r.resultsAppendMethod = true
    ∧ ["success", "warning", "error"].contains r.ifColumnToMatchNotPresent = true
    ∧ r.scanLocation ≠ ""
    ∧ fsPaths.contains r.scanLocation = true := by
  rw [validateRule] at h
  split_ifs at h with h1 h2 h3 h4 h5 h6 h7 h8
  exact ⟨bool_of_not_not h6, bool_of_not_not h7, bool_of_not_not h8, h3, bool_of_not_not h4⟩

/-- C7: when validation of `MatchFilesToCsvData` options fails —
which it does whenever the CSV path is missing, its extension is not ".csv",
or any rule has an illegal `matchMethod`/`resultsAppendMethod`/
`ifColumnToMatchNotPresent` or a missing/non-existing `scanLocation`
(contrapositive of the second conjunct) — the call returns only the
validation error: the CSV file is never loaded, no data row is processed and
the report stays empty. -/
theorem reconciler_validation_fail_fast (fsPaths : List String)
    (csvContent : List (List String)) (o : MatchOptions) :
    (∀ e, validateMatchOptions fsPaths o = some e →
        matchFilesToCsvData fsPaths csvContent o = ⟨none, emptyReport, some e⟩)
    ∧ (validateMatchOptions fsPaths o = none →
        fsPaths.contains (o.csvLocation.getD "") = true
        ∧ pathExt (o.csvLocation.getD "") = ".csv"
        ∧ ∀ m ∈ o.matching,
            ["full", "partial"].contains (defaultRule m).matchMethod = true
            ∧ ["full", "name", "nameProper"].contains
                (defaultRule m).resultsAppendMethod = true
            ∧ ["success", "warning", "error"].contains
                (defaultRule m).ifColumnToMatchNotPresent = true
            ∧ (defaultRule m).scanLocation ≠ ""
            ∧ fsPaths.contains (defaultRule m).scanLocation = true) := by
  constructor
  · intro e he
    simp only [matchFilesToCsvData, he]
  · intro hnone
    simp only [validateMatchOptions] at hnone
    split_ifs at hnone with hcsv hext
    refine ⟨bool_of_not_not hcsv, by simpa using hext, ?_⟩
    intro m hm
    have hr : validateRule fsPaths (defaultRule m) = none :=
      firstSome_eq_none _ hnone _
        (List.mem_map.mpr ⟨m, hm, rfl⟩)
    exact validateRule_none fsPaths (defaultRule m) hr

/-- Witness for `reconciler_validation_fail_fast`: a rule whose scan
location does not exist makes the whole call fail with the untouched
outcome. -/
theorem reconciler_validation_fail_fast_witness :
    matchFilesToCsvData ["/a.csv"] [["ID"], ["v"]]
        { csvLocation := some "/a.csv",
          matching := [{ columnToMatch := some "ID", scanLocation := some "/sc" }] }
      = ⟨none, emptyReport, some "Scan location does not exist"⟩ :=
  (reconciler_validation_fail_fast ["/a.csv"] [["ID"], ["v"]]
      { csvLocation := some "/a.csv",
        matching := [{ columnToMatch := some "ID", scanLocation := some "/sc" }] }).1
    "Scan location does not exist" (by decide)

/-! ### Claim C1 -/

/-- C1: evaluating the reconciler at the claimed scenario — CSV headers
`["ID", "FileMatchResults"]`, one row `["A1", ""]`, a scan location holding
only `A1.pdf`, `matchMethod = "full"`, `resultsAppendMethod = "name"` — the
call does not produce the row `["A1", "A1.pdf"]` with one success: because
`FindInLocation` is invoked without `await`, the promise object always takes
the single-match branch, `undefined` is written into the results cell, and
the run throws a TypeError inside the success message with the report still
empty (0 successes). -/
theorem matchFilesToCsvData_scenario_crash :
    matchFilesToCsvData ["/in/data.csv", "/scan", "/scan/A1.pdf"]
        [["ID", "FileMatchResults"], ["A1", ""]]
        { csvLocation := some "/in/data.csv",
          matching := [{ columnToMatch := some "ID", matchMethod := some "full",
                         resultsAppendMethod := some "name",
                         scanLocation := some "/scan" }] }
      = ⟨some ⟨[JsCell.str "ID", JsCell.str "FileMatchResults"],
               [[JsCell.str "A1", JsCell.undef]], 2⟩,
         emptyReport,
         some "TypeError: path.parse received a non-string argument"⟩
    ∧ [[JsCell.str "A1", JsCell.undef]] ≠ [[JsCell.str "A1", JsCell.str "A1.pdf"]] := by
  exact ⟨by decide, by decide⟩

/-! ### Claim C8 -/

/-- C8: at the UTC instant 2022-10-11 10:35:52.033 the generated date digits
are "2022091110355233", not the "20221011103552033" that the claimed
`YYYYMMDDhhmmssmmm` format requires: the month segment holds the 0-based
`getUTCMonth` index (October renders as "09") and the milliseconds segment
is not zero-padded ("33" instead of "033").  The surrounding
`[prefix_]<date>_<random>[_suffix]` shape of `GenerateNewName` is as
described. -/
theorem generateDateString_month_ms_bug :
    generateDateString ⟨2022, 10, 11, 10, 35, 52, 33⟩ = "2022091110355233"
    ∧ "2022091110355233" ≠ "20221011103552033"
    ∧ generateNewName ⟨2022, 10, 11, 10, 35, 52, 33⟩ 12345
        = "2022091110355233_12345"
    ∧ generateNewName ⟨2022, 10, 11, 10, 35, 52, 33⟩ 12345 "pre" "post"
        = "pre_2022091110355233_12345_post" := by
  exact ⟨by decide, by decide, by decide, by decide⟩

/-! ### Claim C9 -/

/-- C9 counterexample: a CSV whose cells are `" a "` and `"007"` loads and
saves back as `"a"` and `"7"` — the reader trims surrounding whitespace and
auto-types `"007"` to the number 7.  Neither cell contains a delimiter,
quote or newline, so writer quoting normalisation (the comparison here is at
unquoted cell-value level) cannot account for the difference.  This refutes
"cell values equal those of the source file modulo writer quoting
normalization". -/
theorem csv_roundtrip_counterexample :
    csvSaveRecords (csvLoad true [[" a "], ["007"]]) = [["a"], ["7"]]
    ∧ [["a"], ["7"]] ≠ [[" a "], ["007"]] := by
  exact ⟨by decide, by decide⟩

/-- A cell text that is already trimmed and contains no digit survives the
read/write cycle unchanged. -/
theorem cellWrite_readCell (s : String) (ht : jsTrim s = s)
    (hd : s.toList.all (fun c => !c.isDigit) = true) :
    cellWrite (readCell s) = s := by
  have hnum : (decide (s ≠ "") && s.toList.all Char.isDigit) = false := by
    cases hl : s.toList with
    | nil =>
        have hs : s = "" := by
          cases s with
          | mk d =>
              simp only [String.toList] at hl
              rw [hl]
        simp [hs]
    | cons c cs =>
        rw [hl] at hd
        simp only [List.all_cons, Bool.and_eq_true] at hd
        have hc : c.isDigit = false := by simpa using hd.1
        simp [hc]
  rw [readCell]
  simp only [ht, hnum]
  by_cases h1 : s = "true"
  · simp [h1, cellWrite]
  · by_cases h2 : s = "false"
    · simp [h1, h2, cellWrite]
    · simp [h1, h2, cellWrite]

/-- C9 (amended): the round trip preserves header and data-row cell values
only up to the reader-side cell normalisation (trimming and numeric/boolean
auto-typing) in addition to writer quoting: for files whose first
record is non-empty and whose cells are already trimmed and digit-free, the
save of an unmodified load reproduces the source records exactly. -/
theorem csv_roundtrip_amended (records : List (List String))
    (h0 : ∀ r ∈ records.take 1, r ≠ [])
    (hcells : ∀ r ∈ records, ∀ s ∈ r,
        jsTrim s = s ∧ s.toList.all (fun c => !c.isDigit) = true) :
    csvSaveRecords (csvLoad true records) = records := by
  have cellId : ∀ r ∈ records, r.map (fun s => cellWrite (readCell s)) = r := by
    intro r hr
    have hmap : r.map (fun s => cellWrite (readCell s)) = r.map id :=
      List.map_congr_left (fun s hs =>
        cellWrite_readCell s (hcells r hr s hs).1 (hcells r hr s hs).2)
    rw [hmap, List.map_id]
  cases records with
  | nil => rfl
  | cons r rest =>
      have hrne : r ≠ [] := h0 r (by simp)
      have hlen : 0 < (r.map readCell).length := by
        rw [List.length_map]
        exact List.length_pos.mpr hrne
      have hload : csvLoad true (r :: rest) =
          ⟨r.map readCell, rest.map (fun rr => rr.map readCell),
           if (rest.map (fun rr => rr.map readCell)).isEmpty then 0 else 2⟩ := rfl
      rw [hload]
      simp only [csvSaveRecords]
      rw [if_pos hlen]
      simp only [List.singleton_append, List.map_cons, List.map_map]
      congr 1
      · simpa [Function.comp] using cellId r (by simp)
      · have hrest : ∀ rr ∈ rest,
            ((fun rr => List.map cellWrite rr) ∘ fun rr => List.map readCell rr) rr
              = id rr := by
          intro rr hrr
          simp only [Function.comp, id]
          rw [List.map_map]
          simpa [Function.comp] using cellId rr (by simp [hrr])
        rw [List.map_congr_left hrest, List.map_id]

/-- Witness for `csv_roundtrip_amended` at a concrete file. -/
theorem csv_roundtrip_amended_witness :
    csvSaveRecords (csvLoad true [["abc", "x y"], ["q"]]) = [["abc", "x y"], ["q"]] :=
  csv_roundtrip_amended [["abc", "x y"], ["q"]] (by decide) (by decide)

/-! ### Claim C10 -/

/-- Counts of `applyReportCalls` relative to any start state. -/
theorem applyReportCalls_counts :
    ∀ (calls : List ReportCall) (st : ReportState),
      (applyReportCalls st calls).errorCount
          = st.errorCount + (calls.filter ReportCall.isError).length
        ∧ (applyReportCalls st calls).warningCount
          = st.warningCount + (calls.filter ReportCall.isWarning).length
        ∧ (applyReportCalls st calls).successCount
          = st.successCount + (calls.filter ReportCall.isSuccess).length := by
  intro calls
  induction calls with
  | nil => intro st; simp [applyReportCalls]
  | cons c rest ih =>
      intro st
      cases c with
      | errorCall ms =>
          have h := ih (addErrorRow st ms)
          simp only [applyReportCalls, List.filter_cons] at h ⊢
          simp only [ReportCall.isError, ReportCall.isWarning, ReportCall.isSuccess,
            if_true, if_false] at h ⊢
          refine ⟨?_, ?_, ?_⟩
          · rw [h.1]; simp [addErrorRow, addRow]; omega
          · rw [h.2.1]; simp [addErrorRow, addRow]
          · rw [h.2.2]; simp [addErrorRow, addRow]
      | warningCall ms =>
          have h := ih (addWarningRow st ms)
          simp only [applyReportCalls, List.filter_cons] at h ⊢
          simp only [ReportCall.isError, ReportCall.isWarning, ReportCall.isSuccess,
            if_true, if_false] at h ⊢
          refine ⟨?_, ?_, ?_⟩
          · rw [h.1]; simp [addWarningRow, addRow]
          · rw [h.2.1]; simp [addWarningRow, addRow]; omega
          · rw [h.2.2]; simp [addWarningRow, addRow]
      | successCall ms =>
          have h := ih (addSuccessRow st ms)
          simp only [applyReportCalls, List.filter_cons] at h ⊢
          simp only [ReportCall.isError, ReportCall.isWarning, ReportCall.isSuccess,
            if_true, if_false] at h ⊢
          refine ⟨?_, ?_, ?_⟩
          · rw [h.1]; simp [addSuccessRow, addRow]
          · rw [h.2.1]; simp [addSuccessRow, addRow]
          · rw [h.2.2]; simp [addSuccessRow, addRow]; omega

/-- C10: each `addErrorRow`/`addWarningRow`/`addSuccessRow` call increments
its severity count by exactly one regardless of how many messages it is
passed, while the message list and the rendered HTML row list grow by the
number of messages; consequently, over any call sequence a severity count
equals the number of calls at that severity, not the number of messages. -/
theorem switchReport_counts_per_call :
    (∀ (st : ReportState) (messages : List String),
        (addErrorRow st messages).errorCount = st.errorCount + 1
        ∧ (addErrorRow st messages).listErrors = st.listErrors ++ messages
        ∧ (addErrorRow st messages).rows.length = st.rows.length + messages.length
        ∧ (addWarningRow st messages).warningCount = st.warningCount + 1
        ∧ (addWarningRow st messages).listWarnings = st.listWarnings ++ messages
        ∧ (addWarningRow st messages).rows.length = st.rows.length + messages.length
        ∧ (addSuccessRow st messages).successCount = st.successCount + 1
        ∧ (addSuccessRow st messages).listSuccess = st.listSuccess ++ messages
        ∧ (addSuccessRow st messages).rows.length = st.rows.length + messages.length)
    ∧ (∀ (calls : List ReportCall),
        (applyReportCalls emptyReport calls).errorCount
            = (calls.filter ReportCall.isError).length
        ∧ (applyReportCalls emptyReport calls).warningCount
            = (calls.filter ReportCall.isWarning).length
        ∧ (applyReportCalls emptyReport calls).successCount
            = (calls.filter ReportCall.isSuccess).length) := by
  constructor
  · intro st messages
    refine ⟨rfl, rfl, ?_, rfl, rfl, ?_, rfl, rfl, ?_⟩ <;>
      simp [addErrorRow, addWarningRow, addSuccessRow, addRow]
  · intro calls
    have h := applyReportCalls_counts calls emptyReport
    simpa [emptyReport] using h
